import Mathlib

/-!
# Verification of the BarrettAutomate result-extraction core

Shallow embedding of the extraction heuristics of `barrett_calculator.py`
(`_extract_refraction_from_table`, `_extract_refraction_alternative`,
`process_all_patients`) and of `automate_apacrs.py` (`get_refraction_value`).

Numeric cell values are modelled exactly: every literal the code manipulates
is a short decimal string, and both the 0.1-tolerance comparison and Python's
`float()` parse are exact on such inputs at the magnitudes involved, so exact
decimal arithmetic is a faithful model of the `float` arithmetic the claims
exercise.  A parsed value is a `Dec` (integer mantissa over a power-of-ten
denominator); `Dec.toQ` interprets it in `ℚ`, and all comparisons the code
performs (`abs(v - t) < 0.1`, `v == t`) are implemented by exact integer
cross-multiplication, proved equivalent to the corresponding `ℚ` facts.

Web-page content is modelled as the strings the Playwright accessors would
return; fallible page interaction is modelled with `Except`-valued oracles
where a claim is about exception handling.
-/

namespace BarrettAutomate

/-- An exact decimal value `num / 10 ^ exp`: the model of a Python `float`
obtained from a decimal string. -/
structure Dec where
  num : Int
  exp : Nat
deriving DecidableEq, Repr

/-- The rational value of a `Dec`. -/
def Dec.toQ (d : Dec) : ℚ := (d.num : ℚ) / 10 ^ d.exp

/-- Value-level equality test (Python `==` on floats). -/
def Dec.beq (a b : Dec) : Bool := decide (a.num * 10 ^ b.exp = b.num * 10 ^ a.exp)

/-- Value-level strict order (Python `<` on floats). -/
def Dec.blt (a b : Dec) : Bool := decide (a.num * 10 ^ b.exp < b.num * 10 ^ a.exp)

/-- Exact difference (Python `-` on floats, exact on decimals). -/
def Dec.sub (a b : Dec) : Dec :=
  ⟨a.num * 10 ^ b.exp - b.num * 10 ^ a.exp, a.exp + b.exp⟩

/-- Python `abs` on floats. -/
def Dec.absD (d : Dec) : Dec := if d.num < 0 then ⟨-d.num, d.exp⟩ else d

/-- Python unary minus on floats. -/
def Dec.negD (d : Dec) : Dec := ⟨-d.num, d.exp⟩

/-- The source's tolerance check `abs(v - t) < 0.1`
(`barrett_calculator.py`, line 199). -/
def withinTol (v t : Dec) : Bool := Dec.blt ((v.sub t).absD) ⟨1, 1⟩

/-- Python `str.strip()` on a character list: drop whitespace at both ends. -/
def trimChars (l : List Char) : List Char :=
  ((l.dropWhile Char.isWhitespace).reverse.dropWhile Char.isWhitespace).reverse

/-- Python `str.strip()` on a `String`. -/
def trimS (s : String) : String := String.mk (trimChars s.data)

/-- Numeric value of a digit run (most significant first). -/
def digitsVal (l : List Char) : Nat :=
  l.foldl (fun acc c => acc * 10 + (c.toNat - 48)) 0

/-- Exponent suffix of a Python float literal: `[]` or `(e|E)[+|-]digits`.
Given the mantissa, returns the scaled value, or `none` on trailing junk. -/
def pyExpPart (m : Dec) : List Char → Option Dec
  | [] => some m
  | c :: r =>
    if c = 'e' ∨ c = 'E' then
      match r with
      | '+' :: ds =>
        if ds ≠ [] ∧ ds.all Char.isDigit then some ⟨m.num * 10 ^ digitsVal ds, m.exp⟩ else none
      | '-' :: ds =>
        if ds ≠ [] ∧ ds.all Char.isDigit then some ⟨m.num, m.exp + digitsVal ds⟩ else none
      | ds =>
        if ds ≠ [] ∧ ds.all Char.isDigit then some ⟨m.num * 10 ^ digitsVal ds, m.exp⟩ else none
    else none

/-- Body of Python's `float(str)` after stripping whitespace and sign:
`digits [. digits*] [exp]` or `. digits+ [exp]`.  (`inf`/`nan` and digit
underscores, which no claim touches and an exact decimal cannot carry,
parse as `none`.) -/
def pyFloatCore (l : List Char) : Option Dec :=
  let ip := l.takeWhile Char.isDigit
  let r1 := l.dropWhile Char.isDigit
  match r1 with
  | '.' :: r2 =>
    let fp := r2.takeWhile Char.isDigit
    let r3 := r2.dropWhile Char.isDigit
    if ip.isEmpty ∧ fp.isEmpty then none
    else pyExpPart ⟨(digitsVal (ip ++ fp) : Int), fp.length⟩ r3
  | _ =>
    if ip.isEmpty then none
    else pyExpPart ⟨(digitsVal ip : Int), 0⟩ r1

/-- Python's `float(s)`: strip whitespace, optional sign, then the numeric
body.  `ValueError` is modelled as `none`. -/
def pyFloatD (s : String) : Option Dec :=
  match trimChars s.data with
  | '+' :: r => pyFloatCore r
  | '-' :: r => (pyFloatCore r).map Dec.negD
  | l => pyFloatCore l

/-- Match of the regex `\d+\.?\d*` anchored at the head of `l` (greedy):
maximal digit run, optional dot, maximal fractional digit run.  Returns the
matched token and the remaining characters. -/
def matchNumCore (l : List Char) : Option (List Char × List Char) :=
  let ds := l.takeWhile Char.isDigit
  let r1 := l.dropWhile Char.isDigit
  if ds.isEmpty then none
  else
    match r1 with
    | '.' :: r2 =>
      some (ds ++ '.' :: r2.takeWhile Char.isDigit, r2.dropWhile Char.isDigit)
    | _ => some (ds, r1)

/-- Match of the regex `-?\d+\.?\d*` anchored at the head of `l`.  A leading
`-` not followed by a digit fails (the `-?` backtracks but `\d+` then fails
on the `-` itself). -/
def matchNumSignedAt : List Char → Option (List Char × List Char)
  | [] => none
  | c :: r =>
    if c = '-' then
      match matchNumCore r with
      | some (tok, rest) => some ('-' :: tok, rest)
      | none => none
    else matchNumCore (c :: r)

/-- `re.search(r'(-?\d+\.?\d*)', s)`: leftmost match, returning the token. -/
def searchNumSignedAux : List Char → Option (List Char)
  | [] => none
  | c :: cs =>
    match matchNumSignedAt (c :: cs) with
    | some (tok, _) => some tok
    | none => searchNumSignedAux cs

/-- `re.search(r'(\d+\.?\d*)', s)` (the unsigned IOL-power pattern of
`barrett_calculator.py`, line 192): leftmost match, returning the token. -/
def searchNumNoSignAux : List Char → Option (List Char)
  | [] => none
  | c :: cs =>
    match matchNumCore (c :: cs) with
    | some (tok, _) => some tok
    | none => searchNumNoSignAux cs

/-- `float(match.group(1))` applied to a regex token. -/
def tokVal (tok : List Char) : Option Dec := pyFloatD (String.mk tok)

/-- `re.search(r'(-?\d+\.?\d*)', s)` followed by `float` on the group:
the signed numeric extraction used on result cells (line 204). -/
def extractNum (s : String) : Option Dec := (searchNumSignedAux s.data).bind tokVal

/-- `re.search(r'(\d+\.?\d*)', s)` followed by `float` on the group:
the unsigned numeric extraction used on the IOL-power cell (line 192). -/
def extractNumNoSign (s : String) : Option Dec := (searchNumNoSignAux s.data).bind tokVal

/-- First hit of an option-valued function over a list, in order —
the shape of every row-scanning `for` loop in the source. -/
def firstHit (f : α → Option β) : List α → Option β
  | [] => none
  | a :: as =>
    match f a with
    | some b => some b
    | none => firstHit f as

/-- One iteration of the row loop of `_extract_refraction_from_table`
(lines 184-213): require ≥ 3 cells, parse the first cell with the unsigned
pattern, check the 0.1 tolerance, then parse the third cell with the signed
pattern; every failure mode skips the row (`continue`). -/
def scanRow (t : Dec) (cells : List String) : Option Dec :=
  match cells with
  | c0 :: _ :: c2 :: _ =>
    match extractNumNoSign (trimS c0) with
    | none => none
    | some v => if withinTol v t then extractNum (trimS c2) else none
  | _ => none

/-- The structured table scan of `_extract_refraction_from_table`
(lines 184-213): first row to yield a value wins. -/
def tableScan (t : Dec) (rows : List (List String)) : Option Dec :=
  firstHit (scanRow t) rows

/-- `t` occurs at the head of `s` when each `'.'` of `t` matches any single
character (the interpolated `str(target)` is used as an unescaped regex, so
its dot is a wildcard); returns the rest of `s` on success. -/
def wildMatch : List Char → List Char → Option (List Char)
  | [], s => some s
  | _ :: _, [] => none
  | a :: ts, b :: ss => if a = '.' ∨ a = b then wildMatch ts ss else none

/-- Literal prefix strip: `t` occurs verbatim at the head of `s`;
returns the rest of `s` on success. -/
def stripLead : List Char → List Char → Option (List Char)
  | [], s => some s
  | _ :: _, [] => none
  | a :: ts, b :: ss => if a = b then stripLead ts ss else none

/-- Literal substring test (Python's `in` on strings). -/
def hasSub (t : List Char) : List Char → Bool
  | [] => t.isEmpty
  | c :: cs => (stripLead t (c :: cs)).isSome || hasSub t cs

/-- `re.findall(rf'{pat}.*?(-?\d+\.?\d*)', s, re.DOTALL)` and take the first
group: leftmost position where `pat` (dot = wildcard) matches, followed at
the earliest later position by a signed number (the lazy `.*?`). -/
def patSearch (pat : List Char) : List Char → Option (List Char)
  | [] => none
  | c :: cs =>
    match wildMatch pat (c :: cs) with
    | some rest =>
      match searchNumSignedAux rest with
      | some tok => some tok
      | none => patSearch pat cs
    | none => patSearch pat cs

/-- Earliest position where a greedy signed number is immediately followed by
the literal `</td>` (the tail of the third fallback pattern; a shortened
backtrack of the number always leaves a digit or `'.'` next, never `'<'`,
so only the greedy match can succeed). -/
def numThenTd : List Char → Option (List Char)
  | [] => none
  | c :: cs =>
    match matchNumSignedAt (c :: cs) with
    | some (tok, rest) =>
      match stripLead "</td>".data rest with
      | some _ => some tok
      | none => numThenTd cs
    | none => numThenTd cs

/-- `re.findall(rf'{t}\s*</td>.*?(-?\d+\.?\d*)</td>', s, re.DOTALL)` and take
the first group: `t` (dot = wildcard), maximal whitespace, literal `</td>`,
then the earliest number that is followed by `</td>`. -/
def pat3Search (pat : List Char) : List Char → Option (List Char)
  | [] => none
  | c :: cs =>
    match wildMatch pat (c :: cs) with
    | some r1 =>
      match stripLead "</td>".data (r1.dropWhile Char.isWhitespace) with
      | some r2 =>
        match numThenTd r2 with
        | some tok => some tok
        | none => pat3Search pat cs
      | none => pat3Search pat cs
    | none => pat3Search pat cs

/-- `re.search(r'(-?\d+\.?\d*)\s*$', s)`: earliest position where a greedy
signed number is followed only by whitespace up to the end of the string
(a shortened backtrack always leaves a digit or `'.'` next, never
whitespace or the end, so only the greedy match can succeed). -/
def trailingNum : List Char → Option (List Char)
  | [] => none
  | c :: cs =>
    match matchNumSignedAt (c :: cs) with
    | some (tok, rest) =>
      if (rest.dropWhile Char.isWhitespace).isEmpty then some tok else trailingNum cs
    | none => trailingNum cs

/-- The ordered raw-markup pattern chain of `_extract_refraction_alternative`
(lines 229-244), applied to `page.content()`.  `tText` stands for
`str(target_iol_power)`, interpolated unescaped into each pattern. -/
def patternScan (tText : String) (pageContent : String) : Option Dec :=
  let t := tText.data
  let s := pageContent.data
  match (patSearch t s).bind tokVal with
  | some v => some v
  | none =>
    match (patSearch ('>' :: (t ++ ['<'])) s).bind tokVal with
    | some v => some v
    | none => (pat3Search t s).bind tokVal

/-- The highlighted-row scan of `_extract_refraction_alternative`
(lines 247-256): rows whose text contains `str(target)` literally, scanned
for a trailing signed number after stripping. -/
def highScan (tText : String) (rows : List String) : Option Dec :=
  firstHit
    (fun r =>
      if hasSub tText.data r.data then (trailingNum (trimChars r.data)).bind tokVal
      else none)
    rows

/-- `_extract_refraction_alternative` (lines 222-258), pure part: the three
textual patterns in order, then the highlighted-row scan, else `none`. -/
def extract_refraction_alternative (tText : String) (pageContent : String)
    (highlighted : List String) : Option Dec :=
  match patternScan tText pageContent with
  | some v => some v
  | none => highScan tText highlighted

/-- `_extract_refraction_from_table` (lines 175-220), pure part: the
structured scan, falling back to `_extract_refraction_alternative` when no
row yields a value (line 216). -/
def extract_refraction_from_table (t : Dec) (tText : String)
    (rows : List (List String)) (pageContent : String)
    (highlighted : List String) : Option Dec :=
  match tableScan t rows with
  | some v => some v
  | none => extract_refraction_alternative tText pageContent highlighted

/-- `_extract_refraction_alternative` with fallible page accessors: an
exception while reading `page.content()` or the highlighted rows is caught
by the function's own `except` (lines 260-262) and becomes `None`. -/
def extract_refraction_alternative_run (tText : String)
    (contentE : Except String String)
    (highE : Except String (List String)) : Option Dec :=
  match contentE with
  | .error _ => none
  | .ok content =>
    match patternScan tText content with
    | some v => some v
    | none =>
      match highE with
      | .error _ => none
      | .ok rows => highScan tText rows

/-- `_extract_refraction_from_table` with fallible page accessors: an
exception while enumerating `table tr` rows is caught by the outer `except`
(lines 218-220) and becomes `None`; otherwise the structured scan runs and
falls back to the alternative extractor. -/
def extract_refraction_from_table_run (t : Dec) (tText : String)
    (rowsE : Except String (List (List String)))
    (contentE : Except String String)
    (highE : Except String (List String)) : Option Dec :=
  match rowsE with
  | .error _ => none
  | .ok rows =>
    match tableScan t rows with
    | some v => some v
    | none => extract_refraction_alternative_run tText contentE highE

/-- One iteration of the row loop of `get_refraction_value`
(`automate_apacrs.py`, lines 28-45): require ≥ 2 cells, `float()` both
cells in full, and compare the first to the target with `==`;
`ValueError` anywhere skips the row. -/
def autoRowStep (t : Dec) (cols : List String) : Option Dec :=
  match cols with
  | c0 :: c1 :: _ =>
    match pyFloatD (trimS c0) with
    | none => none
    | some v => if Dec.beq v t then pyFloatD (trimS c1) else none
  | _ => none

/-- `get_refraction_value` (`automate_apacrs.py`, lines 13-48), pure part:
skip the header row (`rows[1:]`), then first exact-equality hit wins. -/
def get_refraction_value (t : Dec) (rows : List (List String)) : Option Dec :=
  firstHit (autoRowStep t) (rows.drop 1)

/-- Environment outcome for one row of the batch loop of
`process_all_patients` (lines 281-312): the input step succeeds and the
calculation returns a value, the calculation returns `None`, the input step
returns `False`, or an exception with a given message is raised. -/
inductive StepResult where
  | ok (v : Dec)
  | calcFail
  | inputFail
  | exn (msg : String)

/-- A value of the output `Barrett` column: a number or a sentinel string. -/
inductive Cell where
  | value (v : Dec)
  | sentinel (s : String)
deriving DecidableEq

/-- Python `s[:50]`. -/
def truncate50 (s : String) : String := String.mk (s.data.take 50)

/-- The `Barrett`-column assignment performed for one row of the batch loop
(lines 293-311). -/
def rowOutcome : StepResult → Cell
  | .ok v => .value v
  | .calcFail => .sentinel "計算エラー"
  | .inputFail => .sentinel "入力エラー"
  | .exn m => .sentinel ("エラー: " ++ truncate50 m)

/-- The batch loop of `process_all_patients` (lines 281-312): every row is
processed in order and receives exactly one output cell; no outcome stops
the iteration. -/
def process_all_patients : List StepResult → List Cell
  | [] => []
  | o :: rest => rowOutcome o :: process_all_patients rest

/-- The matching condition of the structured scan, as a decidable check:
the row has at least three cells and its first cell parses (unsigned
pattern, after stripping) to a value within 0.1 of the target. -/
def rowWithinTol (t : Dec) (cells : List String) : Bool :=
  match cells with
  | c0 :: _ :: _ :: _ =>
    match extractNumNoSign (trimS c0) with
    | some v => withinTol v t
    | none => false
  | _ => false

/-! ## Bridge lemmas: `Dec` comparisons agree with their rational meaning -/

/-- The strict-order test on exact decimals means `<` on rational values. -/
theorem Dec.blt_iff (a b : Dec) : Dec.blt a b = true ↔ a.toQ < b.toQ := by
  unfold Dec.blt Dec.toQ
  rw [decide_eq_true_eq, div_lt_div_iff₀ (by positivity) (by positivity)]
  constructor <;> intro h <;> exact_mod_cast h

/-- The equality test on exact decimals means `=` on rational values. -/
theorem Dec.beq_iff (a b : Dec) : Dec.beq a b = true ↔ a.toQ = b.toQ := by
  unfold Dec.beq Dec.toQ
  rw [decide_eq_true_eq,
    div_eq_div_iff (by positivity) (by positivity)]
  constructor <;> intro h <;> exact_mod_cast h

/-- Exact-decimal subtraction means `-` on rational values. -/
theorem Dec.toQ_sub (a b : Dec) : (a.sub b).toQ = a.toQ - b.toQ := by
  unfold Dec.sub Dec.toQ
  have ha : ((10 : ℚ) ^ a.exp) ≠ 0 := by positivity
  have hb : ((10 : ℚ) ^ b.exp) ≠ 0 := by positivity
  field_simp
  ring

/-- Exact-decimal absolute value means `|·|` on rational values. -/
theorem Dec.toQ_absD (d : Dec) : d.absD.toQ = |d.toQ| := by
  unfold Dec.absD Dec.toQ
  split
  · rename_i h
    rw [abs_of_neg (div_neg_of_neg_of_pos (by exact_mod_cast h) (by positivity))]
    push_cast
    ring
  · rename_i h
    rw [abs_of_nonneg (div_nonneg (by exact_mod_cast Int.not_lt.mp h) (by positivity))]

/-- The source's tolerance check `abs(v - t) < 0.1` holds exactly when the
rational values differ by less than `1/10`. -/
theorem withinTol_iff (v t : Dec) : withinTol v t = true ↔ |v.toQ - t.toQ| < 1/10 := by
  unfold withinTol
  rw [Dec.blt_iff, Dec.toQ_absD, Dec.toQ_sub]
  norm_num [Dec.toQ]

/-! ## Helper lemmas on the scanning combinators -/

/-- A list element on which the scan yields nothing can be removed without
changing the scan's result: the loop just continues past it. -/
theorem firstHit_middle_none (f : α → Option β) (a : α) (h : f a = none)
    (pre post : List α) : firstHit f (pre ++ a :: post) = firstHit f (pre ++ post) := by
  induction pre with
  | nil => simp [firstHit, h]
  | cons b bs ih =>
    simp only [List.cons_append, firstHit]
    cases f b <;> simp [ih]

/-- A scan over elements that all yield nothing yields nothing. -/
theorem firstHit_eq_none (f : α → Option β) (l : List α)
    (h : ∀ a ∈ l, f a = none) : firstHit f l = none := by
  induction l with
  | nil => rfl
  | cons b bs ih =>
    simp only [firstHit, h b (List.mem_cons_self b bs)]
    exact ih fun a ha => h a (List.mem_cons_of_mem b ha)

/-- `matchNumCore` fails on a digit-free input (the pattern needs `\d+`). -/
theorem matchNumCore_eq_none (l : List Char) (h : ∀ c ∈ l, c.isDigit = false) :
    matchNumCore l = none := by
  unfold matchNumCore
  cases l with
  | nil => rfl
  | cons c cs =>
    simp [List.takeWhile_cons, h c (List.mem_cons_self c cs)]

/-- `re.search` of the signed numeric pattern fails on a digit-free input. -/
theorem searchNumSignedAux_eq_none (l : List Char) (h : ∀ c ∈ l, c.isDigit = false) :
    searchNumSignedAux l = none := by
  induction l with
  | nil => rfl
  | cons c cs ih =>
    have hcs : ∀ a ∈ cs, a.isDigit = false := fun a ha => h a (List.mem_cons_of_mem c ha)
    have hcore : matchNumCore (c :: cs) = none := matchNumCore_eq_none _ h
    have hcore2 : matchNumCore cs = none := matchNumCore_eq_none _ hcs
    simp only [searchNumSignedAux, matchNumSignedAt]
    by_cases hc : c = '-'
    · simp [hc, hcore2, ih hcs]
    · simp [hc, hcore, ih hcs]

/-- Membership is preserved backwards through `dropWhile`. -/
theorem mem_of_mem_dropWhile {p : Char → Bool} {c : Char} {l : List Char}
    (h : c ∈ l.dropWhile p) : c ∈ l := by
  induction l with
  | nil => simp at h
  | cons a as ih =>
    rw [List.dropWhile_cons] at h
    by_cases hp : p a = true
    · simp only [hp, if_true] at h
      exact List.mem_cons_of_mem a (ih h)
    · simp only [hp, if_false] at h
      exact h

/-- Membership is preserved backwards through Python's `strip()`. -/
theorem mem_of_mem_trimChars {c : Char} {l : List Char} (h : c ∈ trimChars l) : c ∈ l := by
  unfold trimChars at h
  rw [List.mem_reverse] at h
  have h2 := mem_of_mem_dropWhile h
  rw [List.mem_reverse] at h2
  exact mem_of_mem_dropWhile h2

/-- Signed numeric extraction fails on a digit-free cell text, even after
stripping. -/
theorem extractNum_eq_none (s : String) (h : ∀ c ∈ s.data, c.isDigit = false) :
    extractNum (trimS s) = none := by
  unfold extractNum trimS
  rw [searchNumSignedAux_eq_none _ fun c hc => h c (mem_of_mem_trimChars hc)]
  rfl

/-- Signed numeric extraction fails on a digit-free string. -/
theorem extractNum_eq_none_plain (s : String) (h : ∀ c ∈ s.data, c.isDigit = false) :
    extractNum s = none := by
  unfold extractNum
  rw [searchNumSignedAux_eq_none _ h]
  rfl

/-- A row whose first cell parses within tolerance behaves as the parse of
its result cell: the structured scan keeps it iff the tolerance check
passes, and then extracts the third cell. -/
theorem scanRow_cons (t : Dec) (c0 c1 c2 : String) (r : List String) (v : Dec)
    (h : extractNumNoSign (trimS c0) = some v) :
    scanRow t (c0 :: c1 :: c2 :: r) =
      if |v.toQ - t.toQ| < 1/10 then extractNum (trimS c2) else none := by
  simp only [scanRow, h]
  by_cases htol : |v.toQ - t.toQ| < 1/10
  · rw [if_pos ((withinTol_iff v t).mpr htol), if_pos htol]
  · rw [if_neg (fun hb => htol ((withinTol_iff v t).mp hb)), if_neg htol]

/-- A row that does not satisfy the matching condition yields nothing in the
structured scan. -/
theorem scanRow_eq_none_of_not_match (t : Dec) (cells : List String)
    (h : rowWithinTol t cells = false) : scanRow t cells = none := by
  match cells with
  | [] => rfl
  | [c0] => rfl
  | [c0, c1] => rfl
  | c0 :: c1 :: c2 :: r =>
    cases heq : extractNumNoSign (trimS c0) with
    | none => simp [scanRow, heq]
    | some v =>
      simp only [rowWithinTol, heq] at h
      simp [scanRow, heq, h]

/-! ## Claims -/

/-- Claim C1, counterexample.  The claim asserts that every structured table
scan of the repository matches a row iff `abs(V - T) < 0.1`, citing both
`_extract_refraction_from_table` and `get_refraction_value`.  But
`get_refraction_value` (`automate_apacrs.py`, line 40) compares with `==`:
a first cell `21.05`, which parses to a value within `0.1` of the target
`21.0`, is not matched, and the scan returns "not found". -/
theorem C1_counterexample :
    pyFloatD "21.05" = some ⟨2105, 2⟩ ∧
    |Dec.toQ ⟨2105, 2⟩ - Dec.toQ ⟨21, 0⟩| < 1/10 ∧
    get_refraction_value ⟨21, 0⟩ [["IOL", "Ref"], ["21.05", "1.25"]] = none :=
  ⟨by decide, by norm_num [Dec.toQ, abs_lt], by decide⟩

/-- Claim C1, amended.  In `barrett_calculator.py`'s structured table scan, a
row whose first cell parses to `V` is treated as a match iff
`abs(V - T) < 0.1`; with `T = 21.0` a first cell `21.099` matches and
`21.15` does not.  In `automate_apacrs.py`'s scan the row is instead
treated as a match iff `V = T` exactly. -/
theorem C1_amended (t : Dec) (c0 c1 c2 : String) (r : List String) (v : Dec)
    (h : extractNumNoSign (trimS c0) = some v)
    (d0 d1 : String) (dr : List String) (w : Dec)
    (h2 : pyFloatD (trimS d0) = some w) :
    scanRow t (c0 :: c1 :: c2 :: r) =
      (if |v.toQ - t.toQ| < 1/10 then extractNum (trimS c2) else none) ∧
    autoRowStep t (d0 :: d1 :: dr) =
      (if w.toQ = t.toQ then pyFloatD (trimS d1) else none) ∧
    extractNumNoSign (trimS "21.099") = some ⟨21099, 3⟩ ∧
    |Dec.toQ ⟨21099, 3⟩ - Dec.toQ ⟨21, 0⟩| < 1/10 ∧
    scanRow ⟨21, 0⟩ ["21.099", "Optic", "1.25"] = some ⟨125, 2⟩ ∧
    extractNumNoSign (trimS "21.15") = some ⟨2115, 2⟩ ∧
    ¬ |Dec.toQ ⟨2115, 2⟩ - Dec.toQ ⟨21, 0⟩| < 1/10 ∧
    scanRow ⟨21, 0⟩ ["21.15", "Optic", "1.25"] = none := by
  refine ⟨scanRow_cons t c0 c1 c2 r v h, ?_, by decide,
    by norm_num [Dec.toQ, abs_lt], by decide, by decide,
    by norm_num [Dec.toQ, abs_lt], by decide⟩
  simp only [autoRowStep, h2]
  by_cases heq : w.toQ = t.toQ
  · rw [if_pos ((Dec.beq_iff w t).mpr heq), if_pos heq]
  · rw [if_neg (fun hb => heq ((Dec.beq_iff w t).mp hb)), if_neg heq]

/-- Claim C1, witness: the amended claim applied to the concrete row
`("21.5", "Biconvex", "1.25")` with target `21.5`, and the concrete
two-column row `("22.0", "1.75")` with target `21.5`. -/
theorem C1_witness :
    scanRow ⟨215, 1⟩ ["21.5", "Biconvex", "1.25"] =
      (if |Dec.toQ ⟨215, 1⟩ - Dec.toQ ⟨215, 1⟩| < 1/10
        then extractNum (trimS "1.25") else none) ∧
    autoRowStep ⟨215, 1⟩ ["22.0", "1.75"] =
      (if Dec.toQ ⟨220, 1⟩ = Dec.toQ ⟨215, 1⟩ then pyFloatD (trimS "1.75") else none) ∧
    extractNumNoSign (trimS "21.099") = some ⟨21099, 3⟩ ∧
    |Dec.toQ ⟨21099, 3⟩ - Dec.toQ ⟨21, 0⟩| < 1/10 ∧
    scanRow ⟨21, 0⟩ ["21.099", "Optic", "1.25"] = some ⟨125, 2⟩ ∧
    extractNumNoSign (trimS "21.15") = some ⟨2115, 2⟩ ∧
    ¬ |Dec.toQ ⟨2115, 2⟩ - Dec.toQ ⟨21, 0⟩| < 1/10 ∧
    scanRow ⟨21, 0⟩ ["21.15", "Optic", "1.25"] = none :=
  C1_amended ⟨215, 1⟩ "21.5" "Biconvex" "1.25" [] ⟨215, 1⟩ (by decide)
    "22.0" "1.75" [] ⟨220, 1⟩ (by decide)

/-- Claim C2, counterexample.  The claim says the bare string `".5"` is
rejected (yields no extracted value).  In fact `re.search` is unanchored:
on `".5"` it skips the dot and matches `"5"`, so the extraction yields the
value `5`. -/
theorem C2_counterexample :
    extractNum ".5" = some ⟨5, 0⟩ ∧ Dec.toQ ⟨5, 0⟩ = 5 :=
  ⟨by decide, by norm_num [Dec.toQ]⟩

/-- Claim C2, amended.  The pattern `(-?\d+\.?\d*)` requires at least one
digit in the match, so any string containing no digit at all (e.g.
`"invalid"`, `""`) produces no match, which causes the candidate row to be
skipped (never interpreted as zero) and the scan to continue with later
rows.  However, since `re.search` scans the string, the bare string `".5"`
is not rejected: it yields the extracted value `5` (the digits after the
dot, matched without the dot). -/
theorem C2_amended (s : String) (hs : ∀ c ∈ s.data, c.isDigit = false)
    (t : Dec) (c0 c1 c2 : String) (r : List String)
    (hc2 : ∀ c ∈ c2.data, c.isDigit = false) :
    extractNum s = none ∧
    extractNum "invalid" = none ∧
    extractNum "" = none ∧
    extractNum ".5" = some ⟨5, 0⟩ ∧
    scanRow t (c0 :: c1 :: c2 :: r) = none ∧
    tableScan ⟨21, 0⟩ [["21.0", "x", "invalid"], ["21.0", "x", "1.25"]] = some ⟨125, 2⟩ := by
  have hres : extractNum (trimS c2) = none := extractNum_eq_none c2 hc2
  refine ⟨extractNum_eq_none_plain s hs, by decide, by decide, by decide, ?_, by decide⟩
  cases heq : extractNumNoSign (trimS c0) with
  | none => simp [scanRow, heq]
  | some v =>
    rw [scanRow_cons t c0 c1 c2 r v heq]
    by_cases htol : |v.toQ - t.toQ| < 1/10
    · rw [if_pos htol]; exact hres
    · rw [if_neg htol]

/-- Claim C2, witness: the amended claim applied to the digit-free strings
`"n/a"` (free-standing) and `"nope"` (as the result cell of a row whose
first cell `"21.5"` matches the target `21.5`). -/
theorem C2_witness :
    extractNum "n/a" = none ∧
    extractNum "invalid" = none ∧
    extractNum "" = none ∧
    extractNum ".5" = some ⟨5, 0⟩ ∧
    scanRow ⟨215, 1⟩ ["21.5", "Optic", "nope"] = none ∧
    tableScan ⟨21, 0⟩ [["21.0", "x", "invalid"], ["21.0", "x", "1.25"]] = some ⟨125, 2⟩ :=
  C2_amended "n/a" (by decide) ⟨215, 1⟩ "21.5" "Optic" "nope" [] (by decide)

/-- Claim C3, counterexample.  The claim says the extractor does not produce
the value `1.50` from the cell `"+1.50"`.  In fact `re.search` skips the
unmatched `+` and matches `"1.50"`, producing the value `3/2`. -/
theorem C3_counterexample :
    extractNum "+1.50" = some ⟨150, 2⟩ ∧ Dec.toQ ⟨150, 2⟩ = 3/2 :=
  ⟨by decide, by norm_num [Dec.toQ]⟩

/-- Claim C3, amended.  The core pattern `(-?\d+\.?\d*)` indeed does not
handle a leading plus sign: it cannot match at the `+` itself.  But because
`re.search` scans forward, the extractor does produce the value `1.50` from
the cell `"+1.50"`: it matches the sub-string `"1.50"` after the plus sign. -/
theorem C3_amended :
    matchNumSignedAt "+1.50".data = none ∧
    searchNumSignedAux "+1.50".data = some "1.50".data ∧
    extractNum "+1.50" = some ⟨150, 2⟩ ∧
    Dec.toQ ⟨150, 2⟩ = 3/2 :=
  ⟨by decide, by decide, by decide, by norm_num [Dec.toQ]⟩

/-- Claim C4: first-match-wins.  For every target and every row sequence
containing two or more rows within the 0.1 tolerance, the structured table
scan returns the result value of the within-tolerance row that appears
earliest in document order (here: `cells`, with all earlier rows outside
the matching condition and at least one further within-tolerance row after
it), with no ranking among the later candidates. -/
theorem C4_first_match (t : Dec) (pre post : List (List String)) (cells : List String)
    (v : Dec) (hv : scanRow t cells = some v)
    (hpre : ∀ c ∈ pre, rowWithinTol t c = false)
    (_hpost : ∃ c ∈ post, rowWithinTol t c = true) :
    tableScan t (pre ++ cells :: post) = some v := by
  unfold tableScan
  induction pre with
  | nil => simp [firstHit, hv]
  | cons b bs ih =>
    have hb : scanRow t b = none :=
      scanRow_eq_none_of_not_match t b (hpre b (List.mem_cons_self b bs))
    simp only [List.cons_append, firstHit, hb]
    exact ih fun c hc => hpre c (List.mem_cons_of_mem b hc)

/-- Claim C4, witness: with target `21.5`, the first row `("22.9", _, "9")`
is outside tolerance, the second row `("21.5", "Biconvex", "1.25")` and the
third row `("21.45", _, "1.75")` are both within tolerance; the scan
returns the second row's value `1.25`. -/
theorem C4_witness :
    tableScan ⟨215, 1⟩
      ([["22.9", "x", "9"]] ++ ["21.5", "Biconvex", "1.25"] :: [["21.45", "x", "1.75"]]) =
      some ⟨125, 2⟩ :=
  C4_first_match ⟨215, 1⟩ [["22.9", "x", "9"]] [["21.45", "x", "1.75"]]
    ["21.5", "Biconvex", "1.25"] ⟨125, 2⟩ (by decide) (by decide) (by decide)

/-- Claim C5: for every run of the batch loop, every input row receives an
output cell that is either the extracted value or one of the sentinel
strings (the calculation-error sentinel, the input-error sentinel, or the
exception sentinel with its message truncated to at most 50 characters),
and the output has exactly one entry per input row — no row's failure stops
the batch. -/
theorem C5_batch (outcomes : List StepResult) :
    (process_all_patients outcomes).length = outcomes.length ∧
    ∀ cell ∈ process_all_patients outcomes,
      (∃ v, cell = Cell.value v) ∨
      cell = Cell.sentinel "計算エラー" ∨
      cell = Cell.sentinel "入力エラー" ∨
      ∃ m : String, cell = Cell.sentinel ("エラー: " ++ m) ∧ m.length ≤ 50 := by
  induction outcomes with
  | nil => exact ⟨rfl, by intro cell hc; simp [process_all_patients] at hc⟩
  | cons o rest ih =>
    refine ⟨by simp [process_all_patients, ih.1], ?_⟩
    intro cell hc
    rcases List.mem_cons.mp hc with hhead | htail
    · subst hhead
      cases o with
      | ok v => exact Or.inl ⟨v, rfl⟩
      | calcFail => exact Or.inr (Or.inl rfl)
      | inputFail => exact Or.inr (Or.inr (Or.inl rfl))
      | exn m =>
        refine Or.inr (Or.inr (Or.inr ⟨truncate50 m, rfl, ?_⟩))
        show (String.mk (m.data.take 50)).length ≤ 50
        have hlen : (String.mk (m.data.take 50)).length = (m.data.take 50).length := rfl
        rw [hlen, List.length_take]
        exact Nat.min_le_left _ _
    · exact ih.2 cell htail

/-- Claim C5, witness: the batch scenario of the spec — row 1 succeeds with
`1.25`, row 2's input step fails; both rows are present in the output. -/
theorem C5_witness :
    (process_all_patients [StepResult.ok ⟨125, 2⟩, StepResult.inputFail]).length =
      [StepResult.ok ⟨125, 2⟩, StepResult.inputFail].length ∧
    ∀ cell ∈ process_all_patients [StepResult.ok ⟨125, 2⟩, StepResult.inputFail],
      (∃ v, cell = Cell.value v) ∨
      cell = Cell.sentinel "計算エラー" ∨
      cell = Cell.sentinel "入力エラー" ∨
      ∃ m : String, cell = Cell.sentinel ("エラー: " ++ m) ∧ m.length ≤ 50 :=
  C5_batch [StepResult.ok ⟨125, 2⟩, StepResult.inputFail]

/-- Claim C6: any exception raised during page interaction inside the
extraction routines is caught at the routine's boundary and converted to
the "not found" outcome (`none`): a failing row fetch, a failing
`page.content()` fetch, or a failing highlighted-element fetch each yield
`none`, and nothing propagates to the row-processing loop. -/
theorem C6_exceptions (t : Dec) (tText e1 e2 e3 : String)
    (contentE : Except String String) (highE : Except String (List String))
    (content : String) (rows : List (List String))
    (hp : patternScan tText content = none)
    (htab : tableScan t rows = none) :
    extract_refraction_from_table_run t tText (Except.error e1) contentE highE = none ∧
    extract_refraction_alternative_run tText (Except.error e2) highE = none ∧
    extract_refraction_alternative_run tText (Except.ok content) (Except.error e3) = none ∧
    extract_refraction_from_table_run t tText (Except.ok rows) (Except.error e2) highE = none := by
  have h3 : extract_refraction_alternative_run tText (Except.ok content)
      (Except.error e3) = none := by
    simp [extract_refraction_alternative_run, hp]
  exact ⟨rfl, rfl, h3, by simp [extract_refraction_from_table_run, htab,
    extract_refraction_alternative_run]⟩

/-- Claim C6, witness: concrete timeouts at each fetch boundary with target
`21.0` and an empty page yield `none`. -/
theorem C6_witness :
    extract_refraction_from_table_run ⟨21, 0⟩ "21.0" (Except.error "timeout")
      (Except.ok "") (Except.ok []) = none ∧
    extract_refraction_alternative_run "21.0" (Except.error "timeout") (Except.ok []) = none ∧
    extract_refraction_alternative_run "21.0" (Except.ok "nothing here")
      (Except.error "timeout") = none ∧
    extract_refraction_from_table_run ⟨21, 0⟩ "21.0" (Except.ok [["x"]])
      (Except.error "timeout") (Except.ok []) = none :=
  C6_exceptions ⟨21, 0⟩ "21.0" "timeout" "timeout" "timeout" (Except.ok "")
    (Except.ok []) "nothing here" [["x"]] (by decide) (by decide)

/-- Claim C7: whenever the structured table scan finds no matching row, the
fallback raw-markup search (textual patterns, then highlighted-element
scan) is attempted before reporting "not found"; and (in the pure,
exception-free model) the extractor returns `none` exactly when both the
structured scan and the fallback fail. -/
theorem C7_fallback (t : Dec) (tText : String) (rows : List (List String))
    (content : String) (high : List String)
    (h : tableScan t rows = none) :
    extract_refraction_from_table t tText rows content high =
      extract_refraction_alternative tText content high ∧
    (extract_refraction_from_table t tText rows content high = none ↔
      tableScan t rows = none ∧ extract_refraction_alternative tText content high = none) := by
  have h1 : extract_refraction_from_table t tText rows content high =
      extract_refraction_alternative tText content high := by
    simp [extract_refraction_from_table, h]
  exact ⟨h1, by simp [h1, h]⟩

/-- Claim C7, witness: with target `25.0` and a table whose rows are all
outside tolerance, the extractor equals its fallback, and the fallback on a
candidate-free markup fails, so the extractor reports `none`. -/
theorem C7_witness :
    extract_refraction_from_table ⟨25, 0⟩ "25.0" [["21.5", "x", "1.25"]] "no match here" [] =
      extract_refraction_alternative "25.0" "no match here" [] ∧
    (extract_refraction_from_table ⟨25, 0⟩ "25.0" [["21.5", "x", "1.25"]] "no match here" [] =
        none ↔
      tableScan ⟨25, 0⟩ [["21.5", "x", "1.25"]] = none ∧
        extract_refraction_alternative "25.0" "no match here" [] = none) :=
  C7_fallback ⟨25, 0⟩ "25.0" [["21.5", "x", "1.25"]] "no match here" [] (by decide)

/-- Claim C8: every rendered-table row with fewer than the required number
of cells (3 in the three-column scan of `barrett_calculator.py`, 2 in the
two-column scan of `automate_apacrs.py`) is skipped without any error, and
the scan continues with the next row: removing such a row does not change
the scan's result. -/
theorem C8_short_rows (t : Dec) (cells : List String) (h3 : cells.length < 3)
    (cols : List String) (h2 : cols.length < 2) (pre post : List (List String)) :
    scanRow t cells = none ∧
    tableScan t (pre ++ cells :: post) = tableScan t (pre ++ post) ∧
    autoRowStep t cols = none := by
  have hs : scanRow t cells = none := by
    rcases cells with _ | ⟨c0, _ | ⟨c1, _ | ⟨c2, r⟩⟩⟩
    · rfl
    · rfl
    · rfl
    · exfalso; simp at h3; omega
  refine ⟨hs, ?_, ?_⟩
  · unfold tableScan
    exact firstHit_middle_none _ _ hs pre post
  · rcases cols with _ | ⟨d0, _ | ⟨d1, dr⟩⟩
    · rfl
    · rfl
    · exfalso; simp at h2; omega

/-- Claim C8, witness: a 2-cell row in the three-column scan and a 1-cell
row in the two-column scan, each skipped without error. -/
theorem C8_witness :
    scanRow ⟨21, 0⟩ ["21.0", "1.25"] = none ∧
    tableScan ⟨21, 0⟩ ([] ++ ["21.0", "1.25"] :: [["21.0", "x", "1.25"]]) =
      tableScan ⟨21, 0⟩ ([] ++ [["21.0", "x", "1.25"]]) ∧
    autoRowStep ⟨21, 0⟩ ["21.0"] = none :=
  C8_short_rows ⟨21, 0⟩ ["21.0", "1.25"] (by decide) ["21.0"] (by decide)
    [] [["21.0", "x", "1.25"]]

/-- Claim C9 (implicit): a row whose first cell matches the target within
tolerance but whose result cell contains no numeric substring does not
terminate the structured scan; the row yields nothing and the scan
continues with the later rows, unchanged. -/
theorem C9_skip (t : Dec) (c0 c1 c2 : String) (r : List String) (v : Dec)
    (pre post : List (List String))
    (h0 : extractNumNoSign (trimS c0) = some v)
    (htol : |v.toQ - t.toQ| < 1/10)
    (hres : extractNum (trimS c2) = none) :
    scanRow t (c0 :: c1 :: c2 :: r) = none ∧
    tableScan t (pre ++ (c0 :: c1 :: c2 :: r) :: post) = tableScan t (pre ++ post) := by
  have hs : scanRow t (c0 :: c1 :: c2 :: r) = none := by
    rw [scanRow_cons t c0 c1 c2 r v h0, if_pos htol]
    exact hres
  refine ⟨hs, ?_⟩
  unfold tableScan
  exact firstHit_middle_none _ _ hs pre post

/-- Claim C9, witness: with target `21.5`, the matching row
`("21.5", "x", "n/a")` is skipped and the scan continues to the row
`("21.5", "x", "1.75")`. -/
theorem C9_witness :
    scanRow ⟨215, 1⟩ ["21.5", "x", "n/a"] = none ∧
    tableScan ⟨215, 1⟩ ([] ++ ["21.5", "x", "n/a"] :: [["21.5", "x", "1.75"]]) =
      tableScan ⟨215, 1⟩ ([] ++ [["21.5", "x", "1.75"]]) :=
  C9_skip ⟨215, 1⟩ "21.5" "x" "n/a" [] ⟨215, 1⟩ [] [["21.5", "x", "1.75"]]
    (by decide) (by norm_num [Dec.toQ]) (by decide)

/-- Claim C10, counterexample.  The claim says both fallback paths require
the exact textual rendering of the target to occur literally in the page.
But the target text is interpolated into the regex patterns unescaped, so
its `.` matches any character: with target text `"21.5"`, the page
`"a2145b9"` — which does not contain `"21.5"` literally — matches the first
pattern (`21.5` matching the characters `2145`) and the fallback returns
`9` instead of "not found". -/
theorem C10_counterexample :
    extract_refraction_alternative "21.5" "a2145b9" [] = some ⟨9, 0⟩ ∧
    hasSub "21.5".data "a2145b9".data = false :=
  ⟨by decide, by decide⟩

/-- Claim C10, amended.  The fallback applies no numeric tolerance: the
raw-markup patterns require the target's textual rendering to match with
each `.` treated as a single-character wildcard (the rendering is
interpolated into the regex unescaped), and the highlighted-row scan
requires the literal substring.  In particular a page whose markup contains
only `21.45` for target `21.5` — numerically within 0.1 but textually
different — is reported "not found" by both fallback paths. -/
theorem C10_amended (tText : String) (rows : List String)
    (h : ∀ rt ∈ rows, hasSub tText.data rt.data = false) :
    highScan tText rows = none ∧
    extract_refraction_alternative "21.5" "<td>21.45</td>" [] = none ∧
    extract_refraction_alternative "21.5" "" ["row 21.45 x 1.75"] = none := by
  refine ⟨?_, by decide, by decide⟩
  unfold highScan
  apply firstHit_eq_none
  intro rt hrt
  simp [h rt hrt]

/-- Claim C10, witness: the amended claim applied to target text `"21.5"`
and a highlighted row `"abc"` that does not contain it. -/
theorem C10_witness :
    highScan "21.5" ["abc"] = none ∧
    extract_refraction_alternative "21.5" "<td>21.45</td>" [] = none ∧
    extract_refraction_alternative "21.5" "" ["row 21.45 x 1.75"] = none :=
  C10_amended "21.5" ["abc"] (by decide)

end BarrettAutomate
